import Mathlib

/-!
Shallow embedding of the CDC ingestion pipeline
(`src/python/transformers.py`, `src/python/clickhouse_loader.py`,
`src/python/consumer.py`) and proofs about the claims of its
specification.

Modelling conventions:
* Python dynamic values are the inductive `CDC.Val`; a Python dict is an
  association list with unique keys (`CDC.Dict`), `dictGet`/`dictSet`
  mirroring `d.get(k)` / `d[k] = v`.
* `datetime` values are abstracted as `Val.dt` carrying the integer tick
  they were built from: `datetime.fromtimestamp(ts_ms / 1000.0)` becomes
  `Val.dt ts_ms` and `datetime.now()` becomes `Val.dt now`, where `now`
  is threaded explicitly into every function that reads the clock.
* A Python exception is `none` / `Except.error ()`; `transform` catches
  every exception exactly as the `try/except` in the source does.
* Statistics dictionaries become records of natural-number counters.
-/

namespace CDC

/-- A Python runtime value as used by the pipeline: JSON scalars,
`datetime` objects (abstracted to their integer tick) and nested dicts. -/
inductive Val where
  | null
  | int (n : Int)
  | str (s : String)
  | bool (b : Bool)
  | dt (t : Int)
  | dict (entries : List (String × Val))

/-- A Python dictionary: association list, keys unique, insertion order kept. -/
abbrev Dict := List (String × Val)

/-- Python `d.get(k)` / `d[k]` lookup: first entry with the key. -/
def dictGet (d : Dict) (k : String) : Option Val :=
  match d with
  | [] => none
  | (k', v) :: rest => if k' = k then some v else dictGet rest k

/-- Python `d.get(k, default)`. -/
def dictGetD (d : Dict) (k : String) (dflt : Val) : Val :=
  (dictGet d k).getD dflt

/-- Python `d[k] = v`: replace in place if the key exists, else append. -/
def dictSet (d : Dict) (k : String) (v : Val) : Dict :=
  match d with
  | [] => [(k, v)]
  | (k', v') :: rest =>
    if k' = k then (k', v) :: rest else (k', v') :: dictSet rest k v

/-- Python truthiness of a value (`if not x`). -/
def truthy : Val → Bool
  | .null => false
  | .int n => n != 0
  | .str s => s != ""
  | .bool b => b
  | .dt _ => true
  | .dict d => !d.isEmpty

/-- Python `a or b`. -/
def pyOr (a b : Val) : Val := if truthy a then a else b

/-- Python `v == "s"` for a dynamic value against a string literal. -/
def valIsStr (v : Val) (s : String) : Bool :=
  match v with
  | .str t => t = s
  | _ => false

theorem dictGet_dictSet (d : Dict) (k : String) (v : Val) (k' : String) :
    dictGet (dictSet d k v) k' = if k' = k then some v else dictGet d k' := by
  induction d with
  | nil =>
    by_cases h : k = k'
    · subst h; simp [dictSet, dictGet]
    · simp [dictSet, dictGet, h, Ne.symm h]
  | cons hd tl ih =>
    obtain ⟨k₀, v₀⟩ := hd
    simp only [dictSet]
    by_cases h0 : k₀ = k
    · subst h0
      simp only [if_pos rfl, dictGet]
      by_cases h1 : k₀ = k'
      · subst h1; simp
      · simp [h1, Ne.symm h1]
    · simp only [if_neg h0, dictGet]
      by_cases h1 : k₀ = k'
      · subst h1
        simp [h0]
      · simp [h1, ih]

/-! ### transformers.py -/

/-- Table name mapping (`CDCTransformer.TABLE_MAPPING`). -/
def TABLE_MAPPING : List (String × String) :=
  [("customers", "customers"),
   ("vehicles", "vehicles"),
   ("orders", "orders"),
   ("order_items", "order_items"),
   ("payments", "payments")]

/-- First-match association lookup (Python `dict.get` on a static dict). -/
def lookupStr {α : Type} (m : List (String × α)) (k : String) : Option α :=
  match m with
  | [] => none
  | (k', v) :: rest => if k' = k then some v else lookupStr rest k

/-- Helper for `splitDots`: accumulate the current segment (reversed). -/
def splitDotsAux : List Char → List Char → List String
  | [], acc => [String.mk acc.reverse]
  | c :: cs, acc =>
    if c = '.' then String.mk acc.reverse :: splitDotsAux cs []
    else splitDotsAux cs (c :: acc)

/-- Python `s.split('.')`: split on every dot, empty segments kept
(always returns at least one segment). -/
def splitDots (s : String) : List String := splitDotsAux s.toList []

/-- `CDCTransformer._extract_table_name`: split on dots, require at least
five segments, look the last segment up in `TABLE_MAPPING`. -/
def extract_table_name (topic : String) : Option String :=
  let parts := splitDots topic
  if 5 ≤ parts.length then lookupStr TABLE_MAPPING (parts.getLastD "")
  else none

/-- `CDCTransformer._convert_timestamp`: truthy ms timestamp becomes a
datetime from that tick, otherwise `datetime.now()`; a truthy non-numeric
argument makes `datetime.fromtimestamp` raise (`none`). Python `bool` is
numeric, so `True` converts like `1`. -/
def convert_timestamp (v : Val) (now : Int) : Option Val :=
  if truthy v then
    match v with
    | .int n => some (.dt n)
    | .bool b => some (.dt (if b then 1 else 0))
    | _ => none
  else some (.dt now)

/-- Values on which `_convert_timestamp` cannot raise. -/
def convertible : Val → Bool
  | .int _ => true
  | .bool _ => true
  | v => !truthy v

/-- `CDCTransformer._add_cdc_metadata`: copy `data`, then set
`cdc_timestamp`, `cdc_source_db`, `cdc_source_table`, `event_time`.
`none` is a raised exception: `data` not a dict (`.copy()` fails),
`payload['source']` present but not a dict (`.get` fails), or a truthy
non-numeric timestamp value. -/
def add_cdc_metadata (data : Val) (p : Dict) (now : Int) : Option Dict :=
  match data with
  | .dict d =>
    match dictGetD p "source" (.dict []) with
    | .dict s =>
      match convert_timestamp
          (pyOr (dictGetD p "ts_ms" .null) (dictGetD p "source_ts_ms" .null))
          now with
      | some ts =>
        some (dictSet (dictSet (dictSet (dictSet d
          "cdc_timestamp" ts)
          "cdc_source_db" (dictGetD s "db" (.str "ecommerce_db")))
          "cdc_source_table" (dictGetD s "table" (.str "")))
          "event_time" (.dt now))
      | none => none
    | _ => none
  | _ => none

/-- `CDCTransformer._transform_insert`: `payload.get('after', payload)`
is the row (note the fallback to the whole payload when the key is
absent); metadata is added, then `table` and `cdc_operation` are set.
`Except.error ()` is a raised exception. -/
def transform_insert (table : String) (p : Dict) (now : Int) :
    Except Unit Dict :=
  let after_data := dictGetD p "after" (.dict p)
  match add_cdc_metadata after_data p now with
  | none => .error ()
  | some result =>
    .ok (dictSet (dictSet result "table" (.str table))
      "cdc_operation" (.str "INSERT"))

/-- `CDCTransformer._transform_update`: `payload.get('after', {})`; a
falsy after-state returns `None` (skip); otherwise metadata plus
`table` and `cdc_operation = UPDATE`. -/
def transform_update (table : String) (p : Dict) (now : Int) :
    Except Unit (Option Dict) :=
  let after_data := dictGetD p "after" (.dict [])
  if truthy after_data = false then .ok none
  else
    match add_cdc_metadata after_data p now with
    | none => .error ()
    | some result =>
      .ok (some (dictSet (dictSet result "table" (.str table))
        "cdc_operation" (.str "UPDATE")))

/-- `CDCTransformer._transform_delete`: `payload.get('before', {})`; a
falsy before-state returns `None` (skip); otherwise metadata plus
`table` and `cdc_operation = DELETE`. -/
def transform_delete (table : String) (p : Dict) (now : Int) :
    Except Unit (Option Dict) :=
  let before_data := dictGetD p "before" (.dict [])
  if truthy before_data = false then .ok none
  else
    match add_cdc_metadata before_data p now with
    | none => .error ()
    | some result =>
      .ok (some (dictSet (dictSet result "table" (.str table))
        "cdc_operation" (.str "DELETE")))

/-- `CDCTransformer.stats`. -/
structure TransformStats where
  inserts : Nat := 0
  updates : Nat := 0
  deletes : Nat := 0
  errors : Nat := 0
deriving Repr, DecidableEq

/-- Operation dispatch of `CDCTransformer.transform` once the payload is
known to be a dict and the table is resolved: counters are bumped before
the per-operation helper runs, the surrounding `except` adds an error
count when a helper raises. -/
def transformOp (stats : TransformStats) (table : String) (p : Dict)
    (now : Int) : Option Dict × TransformStats :=
  let operation := dictGetD p "op" (dictGetD p "__op" .null)
  if truthy operation = false then (none, stats)
  else if valIsStr operation "c" || valIsStr operation "r" then
    match transform_insert table p now with
    | .ok r => (some r, { stats with inserts := stats.inserts + 1 })
    | .error _ =>
      (none, { stats with inserts := stats.inserts + 1,
                          errors := stats.errors + 1 })
  else if valIsStr operation "u" then
    match transform_update table p now with
    | .ok r => (r, { stats with updates := stats.updates + 1 })
    | .error _ =>
      (none, { stats with updates := stats.updates + 1,
                          errors := stats.errors + 1 })
  else if valIsStr operation "d" then
    match transform_delete table p now with
    | .ok r => (r, { stats with deletes := stats.deletes + 1 })
    | .error _ =>
      (none, { stats with deletes := stats.deletes + 1,
                          errors := stats.errors + 1 })
  else (none, stats)

/-- `CDCTransformer.transform`. An event whose `payload` or `topic` key
is missing, or whose topic is not a string, raises before the table is
resolved and is caught (error counted); an unresolvable table returns
`None` with no error count; a non-dict payload raises only after table
resolution (`payload.get('op')`). -/
def transform (stats : TransformStats) (event : Dict) (now : Int) :
    Option Dict × TransformStats :=
  match dictGet event "payload", dictGet event "topic" with
  | some payload, some (.str topic) =>
    (match extract_table_name topic with
     | none => (none, stats)
     | some table =>
       match payload with
       | .dict p => transformOp stats table p now
       | _ => (none, { stats with errors := stats.errors + 1 }))
  | _, _ => (none, { stats with errors := stats.errors + 1 })

/-- Field access on an optional transform result. -/
def rowGet (r : Option Dict) (k : String) : Option Val :=
  match r with
  | some d => dictGet d k
  | none => none

/-- The CDC metadata / routing keys the transform writes into a row. -/
def metaKeys : List String :=
  ["table", "cdc_operation", "cdc_timestamp", "cdc_source_db",
   "cdc_source_table", "event_time"]

/-- Payload well-formedness for the metadata step: `source` absent or a
dict, and the effective millisecond timestamp convertible. Exactly the
payloads on which `_add_cdc_metadata` cannot raise. -/
def metaOk (p : Dict) : Bool :=
  (match dictGetD p "source" (.dict []) with
   | .dict _ => true
   | _ => false) &&
  convertible
    (pyOr (dictGetD p "ts_ms" .null) (dictGetD p "source_ts_ms" .null))

/-! ### clickhouse_loader.py -/

/-- `ClickHouseLoader.TABLE_SCHEMAS`. -/
def TABLE_SCHEMAS : List (String × List String) :=
  [("customers",
    ["customer_id", "first_name", "last_name", "email", "phone",
     "address", "city", "state", "zip_code", "country",
     "date_of_birth", "customer_since", "is_active",
     "created_at", "updated_at",
     "cdc_operation", "cdc_timestamp", "cdc_source_db", "cdc_source_table",
     "event_time"]),
   ("vehicles",
    ["vehicle_id", "vin", "make", "model", "year", "color",
     "mileage", "transmission", "fuel_type", "body_type",
     "engine_size", "price", "status", "condition",
     "description", "features", "listed_date",
     "created_at", "updated_at",
     "cdc_operation", "cdc_timestamp", "cdc_source_db", "cdc_source_table",
     "event_time"]),
   ("orders",
    ["order_id", "customer_id", "order_date",
     "total_amount", "tax_amount", "discount_amount", "final_amount",
     "status", "payment_status",
     "shipping_address", "billing_address", "notes",
     "created_at", "updated_at",
     "cdc_operation", "cdc_timestamp", "cdc_source_db", "cdc_source_table",
     "event_time"]),
   ("order_items",
    ["order_item_id", "order_id", "vehicle_id",
     "quantity", "unit_price", "discount", "subtotal",
     "warranty_plan", "extended_warranty",
     "created_at", "updated_at",
     "cdc_operation", "cdc_timestamp", "cdc_source_db", "cdc_source_table",
     "event_time"]),
   ("payments",
    ["payment_id", "order_id", "payment_date",
     "payment_method", "amount", "transaction_id",
     "payment_status", "payment_provider",
     "card_last_four", "authorization_code",
     "created_at", "updated_at",
     "cdc_operation", "cdc_timestamp", "cdc_source_db", "cdc_source_table",
     "event_time"])]

/-- Outcome reported by the ClickHouse client for one `execute` of the
bulk insert. `chTransient` and `chNonTransient` are both raised as
`ClickHouseError`; the split records the *cause*, which the handler in
`load_batch` never inspects (it catches on the exception class alone).
`otherError` is any exception that is not a `ClickHouseError`. -/
inductive StoreResult where
  | ok
  | chTransient
  | chNonTransient
  | otherError
deriving Repr, DecidableEq

/-- Is the store outcome raised as a `ClickHouseError`? -/
def isClickHouseError : StoreResult → Bool
  | .chTransient => true
  | .chNonTransient => true
  | _ => false

/-- `ClickHouseLoader.stats`. -/
structure LoaderStats where
  inserts : Nat := 0
  errors : Nat := 0
  batches : Nat := 0
deriving Repr, DecidableEq

/-- One tuple of the bulk insert: `record.get(col)` per declared column,
`None` for missing columns. -/
def rowTuple (columns : List String) (record : Dict) : List Val :=
  columns.map fun col => dictGetD record col .null

/-- One `client.execute` of a bulk insert statement (table plus the
tuples bound to it). -/
structure InsertWrite where
  table : String
  rows : List (List Val)

/-- Outcome of one attempt of the `load_batch` body. -/
inductive AttemptOutcome where
  | success
  | failure
  | raised
deriving Repr, DecidableEq

/-- One attempt of the body of `ClickHouseLoader.load_batch`: empty
records return `True` before anything else; an unknown table (or a
non-string table value, which is never a key of `TABLE_SCHEMAS`) logs
and returns `False`; otherwise the insert is executed and the stats are
updated: on success `inserts += len(records)` and `batches += 1`, on a
`ClickHouseError` `errors += 1` and re-raise, on any other exception
`errors += 1` and return `False`. -/
def load_batch_once (table : Val) (records : List Dict) (res : StoreResult)
    (stats : LoaderStats) :
    AttemptOutcome × LoaderStats × Option InsertWrite :=
  if records.isEmpty then (.success, stats, none)
  else
    match table with
    | .str t =>
      match lookupStr TABLE_SCHEMAS t with
      | none => (.failure, stats, none)
      | some columns =>
        let w : InsertWrite := ⟨t, records.map (rowTuple columns)⟩
        match res with
        | .ok =>
          (.success,
           { stats with inserts := stats.inserts + records.length,
                        batches := stats.batches + 1 },
           some w)
        | .chTransient =>
          (.raised, { stats with errors := stats.errors + 1 }, some w)
        | .chNonTransient =>
          (.raised, { stats with errors := stats.errors + 1 }, some w)
        | .otherError =>
          (.failure, { stats with errors := stats.errors + 1 }, some w)
    | _ => (.failure, stats, none)

/-- Result of a `load_batch` call as seen by the caller: returned
`True`, returned `False`, or an exception escaped (after the retry
decorator exhausted its attempts). -/
inductive LoadResult where
  | ok
  | failed
  | raisedExc
deriving Repr, DecidableEq

/-- The `tenacity` retry loop around `load_batch`
(`stop_after_attempt(3)`, default predicate: retry on any raised
exception; a returned `False` is a normal return and is not retried).
`store` gives the client outcome of each numbered attempt; the third
component collects the insert statements actually executed.
The backoff sleeps (`wait_exponential`) are real-time behavior and are
not modelled. -/
def load_batch_go (table : Val) (records : List Dict)
    (store : Nat → StoreResult) (stats : LoaderStats) (attempt : Nat) :
    Nat → LoadResult × LoaderStats × List InsertWrite
  | 0 => (.raisedExc, stats, [])
  | remaining + 1 =>
    let (out, stats', w) := load_batch_once table records (store attempt) stats
    match out with
    | .success => (.ok, stats', w.toList)
    | .failure => (.failed, stats', w.toList)
    | .raised =>
      match remaining with
      | 0 => (.raisedExc, stats', w.toList)
      | r + 1 =>
        let (res, s, ws) :=
          load_batch_go table records store stats' (attempt + 1) (r + 1)
        (res, s, w.toList ++ ws)

/-- `ClickHouseLoader.load_batch` with its retry decorator: up to 3
attempts. -/
def load_batch (table : Val) (records : List Dict)
    (store : Nat → StoreResult) (stats : LoaderStats) :
    LoadResult × LoaderStats × List InsertWrite :=
  load_batch_go table records store stats 0 3

/-! ### consumer.py -/

mutual

/-- Equality test of dynamic values (Python `==` restricted to the value
shapes the pipeline produces), used for dict-key comparison when the
consumer groups rows by their `table` field. -/
def Val.beq : Val → Val → Bool
  | .null, .null => true
  | .int a, .int b => a == b
  | .str a, .str b => a == b
  | .bool a, .bool b => a == b
  | .dt a, .dt b => a == b
  | .dict a, .dict b => Val.beqEntries a b
  | _, _ => false

/-- Entry-list equality for `Val.beq`. -/
def Val.beqEntries : List (String × Val) → List (String × Val) → Bool
  | [], [] => true
  | (k, v) :: r, (k2, v2) :: r2 => k == k2 && Val.beq v v2 && Val.beqEntries r r2
  | _, _ => false

end

/-- `CDCConsumer.metrics` (the wall-clock `last_commit_time` string is
real-time observability output and is not modelled). -/
structure ConsumerMetrics where
  messages_processed : Nat := 0
  messages_failed : Nat := 0
  batches_committed : Nat := 0
deriving Repr, DecidableEq

/-- Grouping step of `CDCConsumer._process_batch`: append `d` to the
bucket of key `t`, keeping first-seen bucket order (Python dict
insertion order). -/
def groupAdd (acc : List (Val × List Dict)) (t : Val) (d : Dict) :
    List (Val × List Dict) :=
  match acc with
  | [] => [(t, [d])]
  | (t', ds) :: rest =>
    if Val.beq t' t then (t', ds ++ [d]) :: rest
    else (t', ds) :: groupAdd rest t d

/-- `CDCConsumer._process_batch` grouping loop: bucket each message by
its `table` field; a missing or falsy `table` value is skipped. -/
def groupByTable (batch : List Dict) : List (Val × List Dict) :=
  batch.foldl
    (fun acc d =>
      match dictGet d "table" with
      | some t => if truthy t then groupAdd acc t d else acc
      | none => acc)
    []

/-- Load loop of `_process_batch`: call the loader per table bucket in
order; a returned `False` adds the bucket size to `messages_failed` and
continues; a raised exception stops the loop and propagates. Returns
(exception escaped?, metrics, load calls made as (table, record count)). -/
def runLoads (loader : Val → List Dict → LoadResult) :
    List (Val × List Dict) → ConsumerMetrics → List (Val × Nat) →
    Bool × ConsumerMetrics × List (Val × Nat)
  | [], m, calls => (false, m, calls)
  | (t, recs) :: rest, m, calls =>
    match loader t recs with
    | .ok => runLoads loader rest m (calls ++ [(t, recs.length)])
    | .failed =>
      runLoads loader rest
        { m with messages_failed := m.messages_failed + recs.length }
        (calls ++ [(t, recs.length)])
    | .raisedExc => (true, m, calls ++ [(t, recs.length)])

/-- Observable outcome of one `_process_batch` call. `committed` records
whether `consumer.commit(asynchronous=False)` was invoked. -/
structure BatchOutcome where
  committed : Bool
  raisedExc : Bool
  metrics : ConsumerMetrics
  loadCalls : List (Val × Nat)

/-- `CDCConsumer._process_batch`: empty batch returns immediately;
otherwise group by table, load every bucket, then commit offsets
unconditionally unless a load raised (in which case the exception is
re-raised and the commit is skipped). The `finally` clause clears the
batch on every path. -/
def process_batch (loader : Val → List Dict → LoadResult)
    (batch : List Dict) (m : ConsumerMetrics) : BatchOutcome :=
  if batch.isEmpty then
    { committed := false, raisedExc := false, metrics := m, loadCalls := [] }
  else
    let (exc, m1, calls) := runLoads loader (groupByTable batch) m []
    if exc then
      { committed := false, raisedExc := true, metrics := m1,
        loadCalls := calls }
    else
      { committed := true, raisedExc := false,
        metrics :=
          { m1 with batches_committed := m1.batches_committed + 1 },
        loadCalls := calls }

/-- One result of `consumer.poll` as seen by the loop body: no message,
a broker-error message, a message whose JSON decode fails, or a decoded
event dict. -/
inductive PollResult where
  | noMsg
  | errMsg (isEof : Bool)
  | decodeError
  | message (event : Dict)

/-- State of `CDCConsumer.run` between poll iterations. `clock` is the
processing-time tick used for `datetime.now()`; `crashed` records that
an exception escaped `_process_batch` (which terminates the loop). -/
structure RunState where
  message_batch : List Dict
  metrics : ConsumerMetrics
  tstats : TransformStats
  loadCalls : List (Val × Nat)
  clock : Int
  crashed : Bool

/-- Flush the accumulated batch through `_process_batch`. -/
def flushBatch (loader : Val → List Dict → LoadResult) (st : RunState) :
    RunState :=
  let out := process_batch loader st.message_batch st.metrics
  { st with message_batch := [], metrics := out.metrics,
            loadCalls := st.loadCalls ++ out.loadCalls,
            crashed := out.raisedExc }

/-- One iteration of the `while self.running` loop of
`CDCConsumer.run`: a `None` poll flushes a non-empty batch; broker
errors are logged and skipped; a decode failure counts one failed
message; a decoded event is transformed, an accepted row is appended
and counted, and the batch is flushed when its length reaches
`batch_size`. -/
def stepRun (loader : Val → List Dict → LoadResult) (batch_size : Nat)
    (st : RunState) (pr : PollResult) : RunState :=
  if st.crashed then st
  else
    match pr with
    | .noMsg =>
      if st.message_batch.isEmpty then st else flushBatch loader st
    | .errMsg _ => st
    | .decodeError =>
      { st with metrics :=
          { st.metrics with
              messages_failed := st.metrics.messages_failed + 1 } }
    | .message ev =>
      let (res, tstats') := transform st.tstats ev st.clock
      let st1 := { st with tstats := tstats', clock := st.clock + 1 }
      let st2 :=
        match res with
        | some d =>
          { st1 with
              message_batch := st1.message_batch ++ [d],
              metrics :=
                { st1.metrics with
                    messages_processed :=
                      st1.metrics.messages_processed + 1 } }
        | none => st1
      if batch_size ≤ st2.message_batch.length then flushBatch loader st2
      else st2

/-- `CDCConsumer.run` over a finite poll trace, ending with the
shutdown drain (`if self.message_batch: self._process_batch()`). -/
def runLoop (loader : Val → List Dict → LoadResult) (batch_size : Nat)
    (prs : List PollResult) (st : RunState) : RunState :=
  let final := prs.foldl (stepRun loader batch_size) st
  if final.crashed then final
  else if final.message_batch.isEmpty then final
  else flushBatch loader final

/-! ### Heap-level model of the transformer

To settle the mutation/aliasing claim, the transformer is embedded a
second time over an explicit heap: every dict is an address, dict
values are scalars or references, and the only heap mutators are
allocation (`dict.copy()` makes a fresh address) and in-place field
assignment on an address. Each definition mirrors the corresponding
pure one above (and the same lines of `transformers.py`); exception
paths leave the heap unchanged (a raise can at most leave behind an
allocation that nothing references, which is observationally a no-op
and is modelled as returning the original heap). -/

/-- A heap-level dynamic value: scalar or reference to a dict address. -/
inductive HVal where
  | null
  | int (n : Int)
  | str (s : String)
  | bool (b : Bool)
  | dt (t : Int)
  | ref (a : Nat)
deriving Repr, DecidableEq

/-- Contents of one dict object on the heap. -/
abbrev HDict := List (String × HVal)

/-- A heap of dict objects: allocation counter and an address store
(first entry with an address wins, so writes prepend). -/
structure Heap where
  next : Nat
  mem : List (Nat × HDict)

/-- Read the dict at address `a`. -/
def hread (h : Heap) (a : Nat) : HDict :=
  match h.mem.find? (fun e => e.1 == a) with
  | some e => e.2
  | none => []

/-- Allocate a fresh dict with contents `d` (Python `dict(...)` /
`.copy()`). -/
def halloc (d : HDict) (h : Heap) : Nat × Heap :=
  (h.next, ⟨h.next + 1, (h.next, d) :: h.mem⟩)

/-- Overwrite the dict at address `a` (in-place mutation). -/
def hwrite (a : Nat) (d : HDict) (h : Heap) : Heap :=
  ⟨h.next, (a, d) :: h.mem⟩

/-- `d.get(k)` on heap-level dict contents. -/
def hdGet (d : HDict) (k : String) : Option HVal :=
  match d with
  | [] => none
  | (k', v) :: rest => if k' = k then some v else hdGet rest k

/-- `d.get(k, default)` on heap-level dict contents. -/
def hdGetD (d : HDict) (k : String) (dflt : HVal) : HVal :=
  (hdGet d k).getD dflt

/-- `d[k] = v` on heap-level dict contents. -/
def hdSet (d : HDict) (k : String) (v : HVal) : HDict :=
  match d with
  | [] => [(k, v)]
  | (k', v') :: rest =>
    if k' = k then (k', v) :: rest else (k', v') :: hdSet rest k v

/-- Python truthiness of a heap value; a dict reference is truthy iff
the referenced dict is non-empty. -/
def htruthy (h : Heap) : HVal → Bool
  | .null => false
  | .int n => n != 0
  | .str s => s != ""
  | .bool b => b
  | .dt _ => true
  | .ref a => !(hread h a).isEmpty

/-- Heap-level `v == "s"`. -/
def hvalIsStr (v : HVal) (s : String) : Bool :=
  match v with
  | .str t => t = s
  | _ => false

/-- Heap-level `_convert_timestamp`. -/
def convert_timestampH (v : HVal) (now : Int) (h : Heap) : Option HVal :=
  if htruthy h v then
    match v with
    | .int n => some (.dt n)
    | .bool b => some (.dt (if b then 1 else 0))
    | _ => none
  else some (.dt now)

/-- Heap-level Python `a or b`. -/
def pyOrH (h : Heap) (a b : HVal) : HVal := if htruthy h a then a else b

/-- Heap-level `_add_cdc_metadata`: `data` must reference a dict
(otherwise `.copy()` raises); `payload.get('source', {})` yields the
referenced contents, an empty default, or raises on a present non-dict
value; then `data` is shallow-copied into a fresh address and the four
metadata fields are assigned on that fresh address only. -/
def add_cdc_metadataH (data : HVal) (pA : Nat) (now : Int) (h : Heap) :
    Option (Nat × Heap) :=
  match data with
  | .ref a =>
    let p := hread h pA
    let sContents : Option HDict :=
      match hdGet p "source" with
      | none => some []
      | some (.ref sA) => some (hread h sA)
      | some _ => none
    match sContents with
    | none => none
    | some s =>
      match convert_timestampH
          (pyOrH h (hdGetD p "ts_ms" .null) (hdGetD p "source_ts_ms" .null))
          now h with
      | none => none
      | some ts =>
        let (r, h1) := halloc (hread h a) h
        let h2 := hwrite r (hdSet (hread h1 r) "cdc_timestamp" ts) h1
        let h3 := hwrite r
          (hdSet (hread h2 r) "cdc_source_db"
            (hdGetD s "db" (.str "ecommerce_db"))) h2
        let h4 := hwrite r
          (hdSet (hread h3 r) "cdc_source_table"
            (hdGetD s "table" (.str ""))) h3
        let h5 := hwrite r (hdSet (hread h4 r) "event_time" (.dt now)) h4
        some (r, h5)
  | _ => none

/-- Heap-level `_transform_insert`: note `payload.get('after', payload)`
falls back to the payload object itself. -/
def transform_insertH (table : String) (pA : Nat) (now : Int) (h : Heap) :
    Option (Nat × Heap) :=
  let data := hdGetD (hread h pA) "after" (.ref pA)
  match add_cdc_metadataH data pA now h with
  | none => none
  | some (r, h1) =>
    let h2 := hwrite r (hdSet (hread h1 r) "table" (.str table)) h1
    let h3 := hwrite r (hdSet (hread h2 r) "cdc_operation" (.str "INSERT")) h2
    some (r, h3)

/-- Heap-level `_transform_update`: `payload.get('after', {})`, falsy
after-state returns `None` (skip, `Except.ok none`); `Except.error` is a
raised exception. -/
def transform_updateH (table : String) (pA : Nat) (now : Int) (h : Heap) :
    Except Unit (Option (Nat × Heap)) :=
  match hdGet (hread h pA) "after" with
  | none => .ok none
  | some v =>
    if htruthy h v = false then .ok none
    else
      match add_cdc_metadataH v pA now h with
      | none => .error ()
      | some (r, h1) =>
        let h2 := hwrite r (hdSet (hread h1 r) "table" (.str table)) h1
        let h3 :=
          hwrite r (hdSet (hread h2 r) "cdc_operation" (.str "UPDATE")) h2
        .ok (some (r, h3))

/-- Heap-level `_transform_delete`. -/
def transform_deleteH (table : String) (pA : Nat) (now : Int) (h : Heap) :
    Except Unit (Option (Nat × Heap)) :=
  match hdGet (hread h pA) "before" with
  | none => .ok none
  | some v =>
    if htruthy h v = false then .ok none
    else
      match add_cdc_metadataH v pA now h with
      | none => .error ()
      | some (r, h1) =>
        let h2 := hwrite r (hdSet (hread h1 r) "table" (.str table)) h1
        let h3 :=
          hwrite r (hdSet (hread h2 r) "cdc_operation" (.str "DELETE")) h2
        .ok (some (r, h3))

/-- Heap-level `CDCTransformer.transform` on the event object at
address `e`: every caught exception and every skip leaves the heap as
it was; a produced row is the address returned together with the final
heap. -/
def transformH (e : Nat) (now : Int) (h : Heap) : Option Nat × Heap :=
  match hdGet (hread h e) "payload", hdGet (hread h e) "topic" with
  | some (.ref pA), some (.str topic) =>
    (match extract_table_name topic with
     | none => (none, h)
     | some table =>
       let p := hread h pA
       let op := hdGetD p "op" (hdGetD p "__op" .null)
       if htruthy h op = false then (none, h)
       else if hvalIsStr op "c" || hvalIsStr op "r" then
         match transform_insertH table pA now h with
         | some (r, h') => (some r, h')
         | none => (none, h)
       else if hvalIsStr op "u" then
         match transform_updateH table pA now h with
         | .ok (some (r, h')) => (some r, h')
         | .ok none => (none, h)
         | .error _ => (none, h)
       else if hvalIsStr op "d" then
         match transform_deleteH table pA now h with
         | .ok (some (r, h')) => (some r, h')
         | .ok none => (none, h)
         | .error _ => (none, h)
       else (none, h))
  | _, _ => (none, h)

/-! ### Lemmas about the transformer -/

theorem convert_timestamp_isSome (v : Val) (now : Int)
    (h : convertible v = true) : (convert_timestamp v now).isSome = true := by
  cases v <;> simp_all [convertible, convert_timestamp, truthy] <;>
    split <;> simp_all

theorem metaOk_source (p : Dict) (h : metaOk p = true) :
    ∃ s, dictGetD p "source" (.dict []) = .dict s := by
  rw [metaOk, Bool.and_eq_true] at h
  rcases h with ⟨h1, _⟩
  rcases hs : dictGetD p "source" (.dict []) with _ | _ | _ | _ | _ | s <;>
    rw [hs] at h1 <;> simp_all

theorem metaOk_ts (p : Dict) (now : Int) (h : metaOk p = true) :
    ∃ ts, convert_timestamp
      (pyOr (dictGetD p "ts_ms" .null) (dictGetD p "source_ts_ms" .null))
      now = some ts := by
  rw [metaOk, Bool.and_eq_true] at h
  have h2 := convert_timestamp_isSome _ now h.2
  rcases hc : convert_timestamp
      (pyOr (dictGetD p "ts_ms" .null) (dictGetD p "source_ts_ms" .null))
      now with _ | ts
  · rw [hc] at h2; simp at h2
  · exact ⟨ts, rfl⟩

theorem add_cdc_metadata_eq (d p : Dict) (now : Int) (s : Dict) (ts : Val)
    (hs : dictGetD p "source" (.dict []) = .dict s)
    (hts : convert_timestamp
      (pyOr (dictGetD p "ts_ms" .null) (dictGetD p "source_ts_ms" .null))
      now = some ts) :
    add_cdc_metadata (.dict d) p now =
      some (dictSet (dictSet (dictSet (dictSet d
        "cdc_timestamp" ts)
        "cdc_source_db" (dictGetD s "db" (.str "ecommerce_db")))
        "cdc_source_table" (dictGetD s "table" (.str "")))
        "event_time" (.dt now)) := by
  simp [add_cdc_metadata, hs, hts]

theorem dictGet_metaRow (d : Dict) (ts dbv tbv et tv opv : Val) (k : String)
    (h1 : k ≠ "cdc_timestamp") (h2 : k ≠ "cdc_source_db")
    (h3 : k ≠ "cdc_source_table") (h4 : k ≠ "event_time")
    (h5 : k ≠ "table") (h6 : k ≠ "cdc_operation") :
    dictGet (dictSet (dictSet (dictSet (dictSet (dictSet (dictSet d
      "cdc_timestamp" ts) "cdc_source_db" dbv) "cdc_source_table" tbv)
      "event_time" et) "table" tv) "cdc_operation" opv) k = dictGet d k := by
  simp [dictGet_dictSet, h1, h2, h3, h4, h5, h6]

theorem transform_dict_payload (stats : TransformStats) (event : Dict)
    (now : Int) (p : Dict) (topic tbl : String)
    (hp : dictGet event "payload" = some (.dict p))
    (ht : dictGet event "topic" = some (.str topic))
    (htab : extract_table_name topic = some tbl) :
    transform stats event now = transformOp stats tbl p now := by
  simp [transform, hp, ht, htab]

theorem transform_skip_unknown_table (stats : TransformStats) (event : Dict)
    (now : Int) (pv : Val) (topic : String)
    (hp : dictGet event "payload" = some pv)
    (ht : dictGet event "topic" = some (.str topic))
    (htab : extract_table_name topic = none) :
    transform stats event now = (none, stats) := by
  simp [transform, hp, ht, htab]

theorem transformOp_insert (stats : TransformStats) (table : String)
    (p : Dict) (now : Int) (op : String)
    (hop : dictGetD p "op" (dictGetD p "__op" .null) = .str op)
    (hcr : op = "c" ∨ op = "r") :
    transformOp stats table p now =
      (match transform_insert table p now with
       | .ok r => (some r, { stats with inserts := stats.inserts + 1 })
       | .error _ =>
         (none, { stats with inserts := stats.inserts + 1,
                             errors := stats.errors + 1 })) := by
  rcases hcr with h | h <;> subst h <;> simp [transformOp, hop, truthy, valIsStr]

theorem transformOp_update (stats : TransformStats) (table : String)
    (p : Dict) (now : Int)
    (hop : dictGetD p "op" (dictGetD p "__op" .null) = .str "u") :
    transformOp stats table p now =
      (match transform_update table p now with
       | .ok r => (r, { stats with updates := stats.updates + 1 })
       | .error _ =>
         (none, { stats with updates := stats.updates + 1,
                             errors := stats.errors + 1 })) := by
  simp [transformOp, hop, truthy, valIsStr]

theorem transformOp_delete (stats : TransformStats) (table : String)
    (p : Dict) (now : Int)
    (hop : dictGetD p "op" (dictGetD p "__op" .null) = .str "d") :
    transformOp stats table p now =
      (match transform_delete table p now with
       | .ok r => (r, { stats with deletes := stats.deletes + 1 })
       | .error _ =>
         (none, { stats with deletes := stats.deletes + 1,
                             errors := stats.errors + 1 })) := by
  simp [transformOp, hop, truthy, valIsStr]

theorem transform_insert_of_after (table : String) (p after : Dict)
    (now : Int) (s : Dict) (ts : Val)
    (hafter : dictGet p "after" = some (.dict after))
    (hs : dictGetD p "source" (.dict []) = .dict s)
    (hts : convert_timestamp
      (pyOr (dictGetD p "ts_ms" .null) (dictGetD p "source_ts_ms" .null))
      now = some ts) :
    transform_insert table p now =
      .ok (dictSet (dictSet (dictSet (dictSet (dictSet (dictSet after
        "cdc_timestamp" ts)
        "cdc_source_db" (dictGetD s "db" (.str "ecommerce_db")))
        "cdc_source_table" (dictGetD s "table" (.str "")))
        "event_time" (.dt now))
        "table" (.str table))
        "cdc_operation" (.str "INSERT")) := by
  have hget : dictGetD p "after" (.dict p) = .dict after := by
    simp [dictGetD, hafter]
  simp [transform_insert, hget, add_cdc_metadata_eq after p now s ts hs hts]

theorem transform_delete_of_before (table : String) (p before : Dict)
    (now : Int) (s : Dict) (ts : Val)
    (hbefore : dictGet p "before" = some (.dict before))
    (hne : before ≠ [])
    (hs : dictGetD p "source" (.dict []) = .dict s)
    (hts : convert_timestamp
      (pyOr (dictGetD p "ts_ms" .null) (dictGetD p "source_ts_ms" .null))
      now = some ts) :
    transform_delete table p now =
      .ok (some (dictSet (dictSet (dictSet (dictSet (dictSet (dictSet before
        "cdc_timestamp" ts)
        "cdc_source_db" (dictGetD s "db" (.str "ecommerce_db")))
        "cdc_source_table" (dictGetD s "table" (.str "")))
        "event_time" (.dt now))
        "table" (.str table))
        "cdc_operation" (.str "DELETE"))) := by
  have hget : dictGetD p "before" (.dict []) = .dict before := by
    simp [dictGetD, hbefore]
  have htru : truthy (.dict before) = true := by
    simp [truthy, List.isEmpty_iff, hne]
  simp [transform_delete, hget, htru,
    add_cdc_metadata_eq before p now s ts hs hts]

theorem transform_update_of_after (table : String) (p after : Dict)
    (now : Int) (s : Dict) (ts : Val)
    (hafter : dictGet p "after" = some (.dict after))
    (hne : after ≠ [])
    (hs : dictGetD p "source" (.dict []) = .dict s)
    (hts : convert_timestamp
      (pyOr (dictGetD p "ts_ms" .null) (dictGetD p "source_ts_ms" .null))
      now = some ts) :
    transform_update table p now =
      .ok (some (dictSet (dictSet (dictSet (dictSet (dictSet (dictSet after
        "cdc_timestamp" ts)
        "cdc_source_db" (dictGetD s "db" (.str "ecommerce_db")))
        "cdc_source_table" (dictGetD s "table" (.str "")))
        "event_time" (.dt now))
        "table" (.str table))
        "cdc_operation" (.str "UPDATE"))) := by
  have hget : dictGetD p "after" (.dict []) = .dict after := by
    simp [dictGetD, hafter]
  have htru : truthy (.dict after) = true := by
    simp [truthy, List.isEmpty_iff, hne]
  simp [transform_update, hget, htru,
    add_cdc_metadata_eq after p now s ts hs hts]

theorem transform_update_skip (table : String) (p : Dict) (now : Int)
    (hfalsy : truthy (dictGetD p "after" (.dict [])) = false) :
    transform_update table p now = .ok none := by
  simp [transform_update, hfalsy]

theorem transform_delete_skip (table : String) (p : Dict) (now : Int)
    (hfalsy : truthy (dictGetD p "before" (.dict [])) = false) :
    transform_delete table p now = .ok none := by
  simp [transform_delete, hfalsy]

theorem notMem_metaKeys (k : String) (h : k ∉ metaKeys) :
    k ≠ "cdc_timestamp" ∧ k ≠ "cdc_source_db" ∧ k ≠ "cdc_source_table" ∧
    k ≠ "event_time" ∧ k ≠ "table" ∧ k ≠ "cdc_operation" := by
  simp [metaKeys] at h
  tauto

/-! ### Concrete example events used by witnesses -/

/-- A well-formed Debezium create payload for the customers table. -/
def exAfterC : Dict :=
  [("customer_id", .int 7), ("first_name", .str "Ana")]

/-- Payload of a create event. -/
def exPayloadC : Dict :=
  [("op", .str "c"),
   ("before", .null),
   ("after", .dict exAfterC),
   ("source", .dict
     [("db", .str "ecommerce_db"), ("table", .str "customers")]),
   ("ts_ms", .int 1700000000123)]

/-- A decoded consumer event wrapping `exPayloadC`. -/
def exEventC : Dict :=
  [("topic", .str "cdc.ecommerce.ecommerce_postgres.public.customers"),
   ("partition", .int 0), ("offset", .int 42), ("key", .null),
   ("payload", .dict exPayloadC)]

/-- Before-image used by the delete example. -/
def exBeforeD : Dict :=
  [("order_id", .int 3), ("status", .str "cancelled")]

/-- Payload of a delete event. -/
def exPayloadD : Dict :=
  [("op", .str "d"),
   ("before", .dict exBeforeD),
   ("after", .null),
   ("source", .dict
     [("db", .str "ecommerce_db"), ("table", .str "orders")]),
   ("ts_ms", .int 1700000000500)]

/-- A decoded consumer event wrapping `exPayloadD`. -/
def exEventD : Dict :=
  [("topic", .str "cdc.ecommerce.ecommerce_postgres.public.orders"),
   ("partition", .int 1), ("offset", .int 9), ("key", .null),
   ("payload", .dict exPayloadD)]

/-- Payload of an update event whose after-image is empty. -/
def exPayloadUEmpty : Dict :=
  [("op", .str "u"),
   ("before", .dict [("order_id", .int 3)]),
   ("after", .dict []),
   ("source", .dict [("db", .str "ecommerce_db"), ("table", .str "orders")]),
   ("ts_ms", .int 1700000000600)]

/-- A decoded consumer event wrapping `exPayloadUEmpty`. -/
def exEventUEmpty : Dict :=
  [("topic", .str "cdc.ecommerce.ecommerce_postgres.public.orders"),
   ("partition", .int 1), ("offset", .int 10), ("key", .null),
   ("payload", .dict exPayloadUEmpty)]

/-! ### Claim C4 -/

/-- C4: for every valid create or snapshot-read payload, `transform`
returns a row whose non-CDC columns (keys outside the metadata keys the
transform writes) exactly equal the payload's `after` object and whose
`cdc_operation` field is `"INSERT"`. -/
theorem C4_insert_preserves_after (stats : TransformStats) (event : Dict)
    (now : Int) (p after : Dict) (topic tbl op : String)
    (hp : dictGet event "payload" = some (.dict p))
    (ht : dictGet event "topic" = some (.str topic))
    (htab : extract_table_name topic = some tbl)
    (hop : dictGetD p "op" (dictGetD p "__op" .null) = .str op)
    (hcr : op = "c" ∨ op = "r")
    (hafter : dictGet p "after" = some (.dict after))
    (hmeta : metaOk p = true) :
    (transform stats event now).1.isSome = true ∧
    rowGet (transform stats event now).1 "cdc_operation" =
      some (.str "INSERT") ∧
    ∀ k, k ∉ metaKeys →
      rowGet (transform stats event now).1 k = dictGet after k := by
  obtain ⟨s, hs⟩ := metaOk_source p hmeta
  obtain ⟨ts, hts⟩ := metaOk_ts p now hmeta
  rw [transform_dict_payload stats event now p topic tbl hp ht htab,
      transformOp_insert stats tbl p now op hop hcr,
      transform_insert_of_after tbl p after now s ts hafter hs hts]
  refine ⟨rfl, ?_, ?_⟩
  · simp [rowGet, dictGet_dictSet]
  · intro k hk
    obtain ⟨h1, h2, h3, h4, h5, h6⟩ := notMem_metaKeys k hk
    simpa [rowGet] using
      dictGet_metaRow after ts _ _ _ _ _ k h1 h2 h3 h4 h5 h6

/-- Witness for C4 at a concrete create event. -/
theorem C4_insert_preserves_after_witness :
    rowGet (transform ⟨0, 0, 0, 0⟩ exEventC 99).1 "customer_id" =
      some (.int 7) ∧
    rowGet (transform ⟨0, 0, 0, 0⟩ exEventC 99).1 "cdc_operation" =
      some (.str "INSERT") := by
  have h := C4_insert_preserves_after ⟨0, 0, 0, 0⟩ exEventC 99 exPayloadC
    exAfterC "cdc.ecommerce.ecommerce_postgres.public.customers"
    "customers" "c" rfl rfl rfl rfl (Or.inl rfl) rfl rfl
  exact ⟨(h.2.2 "customer_id" (by decide)).trans rfl, h.2.1⟩

/-! ### Claim C5 -/

/-- The spec's words for table resolution: take the final dot-delimited
segment of the topic name (no constraint on the number of segments). -/
def lastSegment (topic : String) : String := (splitDots topic).getLastD ""

/-- C5 counterexample: on the three-segment topic `a.b.customers` the
final-segment allow-list lookup succeeds, yet `_extract_table_name`
returns `None` (it also requires at least five segments), so `transform`
skips an otherwise valid create event. The claim that the table is
resolved by final-segment lookup alone is therefore false. -/
theorem C5_counterexample :
    lookupStr TABLE_MAPPING (lastSegment "a.b.customers") =
      some "customers" ∧
    extract_table_name "a.b.customers" = none ∧
    (transform ⟨0, 0, 0, 0⟩
      [("topic", .str "a.b.customers"), ("payload", .dict exPayloadC)]
      0).1 = none :=
  ⟨rfl, rfl, rfl⟩

/-- C5 as amended: when the topic has at least five dot-delimited
segments the destination table is exactly the allow-list lookup of the
final segment; and whenever table resolution fails (for whatever
reason), `transform` returns skip (`none`) with the statistics
untouched — no error is recorded. -/
theorem C5_table_resolution :
    (∀ topic : String, 5 ≤ (splitDots topic).length →
      extract_table_name topic =
        lookupStr TABLE_MAPPING (lastSegment topic)) ∧
    (∀ (stats : TransformStats) (event : Dict) (now : Int) (pv : Val)
       (topic : String),
      dictGet event "payload" = some pv →
      dictGet event "topic" = some (.str topic) →
      extract_table_name topic = none →
      (transform stats event now).1 = none ∧
      (transform stats event now).2 = stats) := by
  constructor
  · intro topic h
    simp [extract_table_name, lastSegment, h]
  · intro stats event now pv topic hp ht htab
    rw [transform_skip_unknown_table stats event now pv topic hp ht htab]
    exact ⟨rfl, rfl⟩

/-- Witness for C5 (amended): the five-segment production topic resolves
to `customers`, and the six-segment unknown table `unknown_table` makes
`transform` skip without touching the statistics. -/
theorem C5_table_resolution_witness :
    extract_table_name "cdc.ecommerce.ecommerce_postgres.public.customers" =
      lookupStr TABLE_MAPPING
        (lastSegment "cdc.ecommerce.ecommerce_postgres.public.customers") ∧
    (transform ⟨1, 2, 3, 4⟩
      [("topic", .str "cdc.ecommerce.ecommerce_postgres.public.unknown_table"),
       ("payload", .dict exPayloadC)] 0).2 = ⟨1, 2, 3, 4⟩ := by
  refine ⟨C5_table_resolution.1
    "cdc.ecommerce.ecommerce_postgres.public.customers" (by decide), ?_⟩
  exact (C5_table_resolution.2 ⟨1, 2, 3, 4⟩
    [("topic", .str "cdc.ecommerce.ecommerce_postgres.public.unknown_table"),
     ("payload", .dict exPayloadC)] 0 (.dict exPayloadC)
    "cdc.ecommerce.ecommerce_postgres.public.unknown_table"
    rfl rfl rfl).2

/-! ### Claim C6 -/

/-- C6: for update payloads `transform` returns a row tagged UPDATE
exactly when `after` is non-empty (skip otherwise), and for delete
payloads a row equal to `before`'s fields tagged DELETE exactly when
`before` is non-empty (skip otherwise). -/
theorem C6_update_delete_semantics :
    (∀ (stats : TransformStats) (event p after : Dict) (now : Int)
       (topic tbl : String),
      dictGet event "payload" = some (.dict p) →
      dictGet event "topic" = some (.str topic) →
      extract_table_name topic = some tbl →
      dictGetD p "op" (dictGetD p "__op" .null) = .str "u" →
      dictGet p "after" = some (.dict after) →
      after ≠ [] →
      metaOk p = true →
      (transform stats event now).1.isSome = true ∧
      rowGet (transform stats event now).1 "cdc_operation" =
        some (.str "UPDATE")) ∧
    (∀ (stats : TransformStats) (event p : Dict) (now : Int)
       (topic tbl : String),
      dictGet event "payload" = some (.dict p) →
      dictGet event "topic" = some (.str topic) →
      extract_table_name topic = some tbl →
      dictGetD p "op" (dictGetD p "__op" .null) = .str "u" →
      truthy (dictGetD p "after" (.dict [])) = false →
      (transform stats event now).1 = none) ∧
    (∀ (stats : TransformStats) (event p before : Dict) (now : Int)
       (topic tbl : String),
      dictGet event "payload" = some (.dict p) →
      dictGet event "topic" = some (.str topic) →
      extract_table_name topic = some tbl →
      dictGetD p "op" (dictGetD p "__op" .null) = .str "d" →
      dictGet p "before" = some (.dict before) →
      before ≠ [] →
      metaOk p = true →
      (transform stats event now).1.isSome = true ∧
      rowGet (transform stats event now).1 "cdc_operation" =
        some (.str "DELETE") ∧
      ∀ k, k ∉ metaKeys →
        rowGet (transform stats event now).1 k = dictGet before k) ∧
    (∀ (stats : TransformStats) (event p : Dict) (now : Int)
       (topic tbl : String),
      dictGet event "payload" = some (.dict p) →
      dictGet event "topic" = some (.str topic) →
      extract_table_name topic = some tbl →
      dictGetD p "op" (dictGetD p "__op" .null) = .str "d" →
      truthy (dictGetD p "before" (.dict [])) = false →
      (transform stats event now).1 = none) := by
  refine ⟨?_, ?_, ?_, ?_⟩
  · intro stats event p after now topic tbl hp ht htab hop hafter hne hmeta
    obtain ⟨s, hs⟩ := metaOk_source p hmeta
    obtain ⟨ts, hts⟩ := metaOk_ts p now hmeta
    rw [transform_dict_payload stats event now p topic tbl hp ht htab,
        transformOp_update stats tbl p now hop,
        transform_update_of_after tbl p after now s ts hafter hne hs hts]
    exact ⟨rfl, by simp [rowGet, dictGet_dictSet]⟩
  · intro stats event p now topic tbl hp ht htab hop hfalsy
    rw [transform_dict_payload stats event now p topic tbl hp ht htab,
        transformOp_update stats tbl p now hop,
        transform_update_skip tbl p now hfalsy]
  · intro stats event p before now topic tbl hp ht htab hop hbefore hne hmeta
    obtain ⟨s, hs⟩ := metaOk_source p hmeta
    obtain ⟨ts, hts⟩ := metaOk_ts p now hmeta
    rw [transform_dict_payload stats event now p topic tbl hp ht htab,
        transformOp_delete stats tbl p now hop,
        transform_delete_of_before tbl p before now s ts hbefore hne hs hts]
    refine ⟨rfl, by simp [rowGet, dictGet_dictSet], ?_⟩
    intro k hk
    obtain ⟨h1, h2, h3, h4, h5, h6⟩ := notMem_metaKeys k hk
    simpa [rowGet] using
      dictGet_metaRow before ts _ _ _ _ _ k h1 h2 h3 h4 h5 h6
  · intro stats event p now topic tbl hp ht htab hop hfalsy
    rw [transform_dict_payload stats event now p topic tbl hp ht htab,
        transformOp_delete stats tbl p now hop,
        transform_delete_skip tbl p now hfalsy]

/-- Witness for C6: a concrete delete event keeps the before-image and
is tagged DELETE; a concrete update event with empty after-image is
skipped. -/
theorem C6_update_delete_semantics_witness :
    rowGet (transform ⟨0, 0, 0, 0⟩ exEventD 50).1 "order_id" =
      some (.int 3) ∧
    rowGet (transform ⟨0, 0, 0, 0⟩ exEventD 50).1 "cdc_operation" =
      some (.str "DELETE") ∧
    (transform ⟨0, 0, 0, 0⟩ exEventUEmpty 51).1 = none := by
  have hd := C6_update_delete_semantics.2.2.1 ⟨0, 0, 0, 0⟩ exEventD
    exPayloadD exBeforeD 50
    "cdc.ecommerce.ecommerce_postgres.public.orders" "orders"
    rfl rfl rfl rfl rfl (List.cons_ne_nil _ _) rfl
  have hu := C6_update_delete_semantics.2.1 ⟨0, 0, 0, 0⟩ exEventUEmpty
    exPayloadUEmpty 51
    "cdc.ecommerce.ecommerce_postgres.public.orders" "orders"
    rfl rfl rfl rfl rfl
  exact ⟨(hd.2.2 "order_id" (by decide)).trans rfl, hd.2.1, hu⟩

/-! ### Claims about the loader (C2, C3, C8) -/

/-- A sample already-transformed record for loader witnesses. -/
def exRecord : Dict :=
  [("customer_id", .int 7), ("first_name", .str "Ana"),
   ("cdc_operation", .str "INSERT"), ("cdc_timestamp", .dt 1700000000123),
   ("cdc_source_db", .str "ecommerce_db"),
   ("cdc_source_table", .str "customers"), ("event_time", .dt 99),
   ("table", .str "customers")]

/-- C2 counterexample: with the store reporting a non-transient
`ClickHouseError` (e.g. a schema mismatch) on every attempt, `load_batch`
executes the insert three times — the retry decorator's default
predicate retries on any raised exception and never inspects whether the
store error was transient — and only then lets the failure escape. The
claim that a non-transient store error is not retried and propagates
immediately is therefore false. -/
theorem C2_counterexample :
    (load_batch (.str "customers") [exRecord]
      (fun _ => .chNonTransient) ⟨0, 0, 0⟩).2.2.length = 3 ∧
    (load_batch (.str "customers") [exRecord]
      (fun _ => .chNonTransient) ⟨0, 0, 0⟩).1 = .raisedExc :=
  ⟨rfl, rfl⟩

/-- C2 as amended: the bulk load retries the entire call up to 3
attempts (with exponential backoff between them) for every error the
store raises as a `ClickHouseError`, whether transient or not; an
outcome that is not a raised `ClickHouseError` ends the call on that
attempt (success returns, a non-`ClickHouseError` exception or an
unknown table returns failure without retry). -/
theorem C2_retry_counts (t : String) (records : List Dict)
    (store : Nat → StoreResult) (stats : LoaderStats) (cols : List String)
    (hne : records.isEmpty = false)
    (hcols : lookupStr TABLE_SCHEMAS t = some cols) :
    (isClickHouseError (store 0) = false →
      (load_batch (.str t) records store stats).2.2.length = 1) ∧
    (isClickHouseError (store 0) = true →
     isClickHouseError (store 1) = false →
      (load_batch (.str t) records store stats).2.2.length = 2) ∧
    (isClickHouseError (store 0) = true →
     isClickHouseError (store 1) = true →
      (load_batch (.str t) records store stats).2.2.length = 3) := by
  refine ⟨?_, ?_, ?_⟩
  · intro h0
    rcases s0 : store 0 <;> rw [s0] at h0 <;>
      simp_all [load_batch, load_batch_go, load_batch_once, hne, hcols,
        isClickHouseError]
  · intro h0 h1
    rcases s0 : store 0 <;> rw [s0] at h0 <;>
      rcases s1 : store 1 <;> rw [s1] at h1 <;>
      simp_all [load_batch, load_batch_go, load_batch_once, hne, hcols,
        isClickHouseError]
  · intro h0 h1
    rcases s0 : store 0 <;> rw [s0] at h0 <;>
      rcases s1 : store 1 <;> rw [s1] at h1 <;>
      rcases s2 : store 2 <;>
      simp_all [load_batch, load_batch_go, load_batch_once, hne, hcols,
        isClickHouseError]

/-- Witness for C2 (amended): a healthy store gives exactly one insert
execution; a store raising `ClickHouseError` on the first attempt only
gives exactly two. -/
theorem C2_retry_counts_witness :
    (load_batch (.str "customers") [exRecord]
      (fun _ => .ok) ⟨0, 0, 0⟩).2.2.length = 1 ∧
    (load_batch (.str "customers") [exRecord]
      (fun a => if a = 0 then .chTransient else .ok) ⟨0, 0, 0⟩).2.2.length
      = 2 := by
  constructor
  · exact (C2_retry_counts "customers" [exRecord] (fun _ => .ok)
      ⟨0, 0, 0⟩ _ rfl rfl).1 rfl
  · exact (C2_retry_counts "customers" [exRecord]
      (fun a => if a = 0 then .chTransient else .ok)
      ⟨0, 0, 0⟩ _ rfl rfl).2.1 rfl rfl

/-- C3 counterexample: a load that raises a transient `ClickHouseError`
on the first two attempts and succeeds on the third ends with
`errors = 2`, because `load_batch` increments the error counter inside
the `except ClickHouseError` handler of every attempt, not only on
exhaustion. The claim's final stats (one batch, zero errors) are
therefore false; the batch and insert counters do match. -/
theorem C3_counterexample :
    (load_batch (.str "customers") [exRecord]
      (fun a => if a < 2 then .chTransient else .ok) ⟨0, 0, 0⟩).1 =
      .ok ∧
    (load_batch (.str "customers") [exRecord]
      (fun a => if a < 2 then .chTransient else .ok) ⟨0, 0, 0⟩).2.1 =
      ⟨1, 2, 1⟩ :=
  ⟨rfl, rfl⟩

/-- C3 as amended: the loader's error counter increments once per failed
attempt; a call that raises `ClickHouseError` on its first two attempts
and succeeds on the third returns success with `errors` increased by 2,
`inserts` increased by `len(rows)` and `batches` increased by 1. -/
theorem C3_error_counter_per_attempt (t : String) (records : List Dict)
    (store : Nat → StoreResult) (stats : LoaderStats) (cols : List String)
    (hne : records.isEmpty = false)
    (hcols : lookupStr TABLE_SCHEMAS t = some cols)
    (h0 : isClickHouseError (store 0) = true)
    (h1 : isClickHouseError (store 1) = true)
    (h2 : store 2 = .ok) :
    (load_batch (.str t) records store stats).1 = .ok ∧
    (load_batch (.str t) records store stats).2.1 =
      ⟨stats.inserts + records.length, stats.errors + 2,
       stats.batches + 1⟩ := by
  rcases s0 : store 0 <;> rw [s0] at h0 <;>
    rcases s1 : store 1 <;> rw [s1] at h1 <;>
    simp_all [load_batch, load_batch_go, load_batch_once, hne, hcols,
      isClickHouseError]

/-- Witness for C3 (amended) at a concrete two-failures-then-success
store. -/
theorem C3_error_counter_per_attempt_witness :
    (load_batch (.str "customers") [exRecord]
      (fun a => if a < 2 then .chNonTransient else .ok) ⟨5, 1, 2⟩).2.1 =
      ⟨6, 3, 3⟩ := by
  exact (C3_error_counter_per_attempt "customers" [exRecord]
    (fun a => if a < 2 then .chNonTransient else .ok)
    ⟨5, 1, 2⟩ _ rfl rfl rfl rfl rfl).2

/-- C8: a load call with an empty row list is a no-op success: it
returns `True`, executes no insert statement, and leaves every
statistics counter unchanged — for any table value and any store
behavior. -/
theorem C8_empty_rows_noop (table : Val) (store : Nat → StoreResult)
    (stats : LoaderStats) :
    load_batch table [] store stats = (.ok, stats, []) := rfl

/-! ### Claims about the consumer (C1, C7) -/

/-- Did this load call let an exception escape? -/
def isRaise : LoadResult → Bool
  | .raisedExc => true
  | _ => false

theorem runLoads_fst (loader : Val → List Dict → LoadResult)
    (groups : List (Val × List Dict)) (m : ConsumerMetrics)
    (calls : List (Val × Nat)) :
    (runLoads loader groups m calls).1 =
      groups.any fun g => isRaise (loader g.1 g.2) := by
  induction groups generalizing m calls with
  | nil => simp [runLoads]
  | cons g rest ih =>
    obtain ⟨t, recs⟩ := g
    rcases hl : loader t recs <;>
      simp [runLoads, hl, ih, isRaise]

theorem runLoads_calls (loader : Val → List Dict → LoadResult)
    (groups : List (Val × List Dict)) (m : ConsumerMetrics)
    (calls : List (Val × Nat))
    (hnr : ∀ g ∈ groups, isRaise (loader g.1 g.2) = false) :
    (runLoads loader groups m calls).2.2 =
      calls ++ groups.map fun g => (g.1, g.2.length) := by
  induction groups generalizing m calls with
  | nil => simp [runLoads]
  | cons g rest ih =>
    obtain ⟨t, recs⟩ := g
    have hg := hnr (t, recs) (List.mem_cons_self _ _)
    have hrest : ∀ g ∈ rest, isRaise (loader g.1 g.2) = false :=
      fun g hgm => hnr g (List.mem_cons_of_mem _ hgm)
    rcases hl : loader t recs <;> rw [hl] at hg <;>
      simp_all [runLoads, ih, isRaise]

theorem runLoads_committed_metric (loader : Val → List Dict → LoadResult)
    (groups : List (Val × List Dict)) (m : ConsumerMetrics)
    (calls : List (Val × Nat)) :
    (runLoads loader groups m calls).2.1.batches_committed =
      m.batches_committed := by
  induction groups generalizing m calls with
  | nil => simp [runLoads]
  | cons g rest ih =>
    obtain ⟨t, recs⟩ := g
    rcases hl : loader t recs <;> simp [runLoads, hl, ih]

/-- A loader oracle built from the real `load_batch` against a store
that always succeeds: `bad_table` is not in the schema registry, so its
load returns `False`, while `customers` loads fine. -/
def exLoader (t : Val) (recs : List Dict) : LoadResult :=
  (load_batch t recs (fun _ => .ok) ⟨0, 0, 0⟩).1

/-- A second record routed to an unknown table. -/
def exRecordBad : Dict :=
  [("order_id", .int 1), ("table", .str "bad_table")]

/-- C1 counterexample: a flush window containing a `customers` row and a
`bad_table` row. The `bad_table` load fails (returns `False`, an
unknown table is a non-retryable failure), yet `_process_batch` still
invokes `consumer.commit`: the commit is unconditional unless a load
*raises*. The claim that no offsets are committed for a window with a
failed table load is therefore false. -/
theorem C1_counterexample :
    exLoader (.str "bad_table") [exRecordBad] = .failed ∧
    (process_batch exLoader [exRecord, exRecordBad] ⟨0, 0, 0⟩).committed =
      true ∧
    (process_batch exLoader [exRecord, exRecordBad]
      ⟨0, 0, 0⟩).metrics.messages_failed = 1 :=
  ⟨rfl, rfl, rfl⟩

/-- C1 as amended: for a non-empty flush window the loop commits offsets
if and only if no table's load raised an exception. A load failure that
is merely returned (`False`: unknown table, non-store exception) is
logged and counted but does not prevent the commit; only a raised
exception (a `ClickHouseError` surviving retry exhaustion) skips the
commit, and it then propagates out of the batch processor. -/
theorem C1_commit_unless_raise (loader : Val → List Dict → LoadResult)
    (batch : List Dict) (m : ConsumerMetrics) (h : batch ≠ []) :
    (process_batch loader batch m).committed =
      !((groupByTable batch).any fun g => isRaise (loader g.1 g.2)) ∧
    (process_batch loader batch m).raisedExc =
      ((groupByTable batch).any fun g => isRaise (loader g.1 g.2)) := by
  obtain ⟨x, xs, rfl⟩ := List.exists_cons_of_ne_nil h
  have hfst := runLoads_fst loader (groupByTable (x :: xs)) m []
  rcases hR : runLoads loader (groupByTable (x :: xs)) m [] with ⟨exc, m1, calls⟩
  rw [hR] at hfst
  simp only at hfst
  rcases hany : (groupByTable (x :: xs)).any fun g => isRaise (loader g.1 g.2)
  · rw [hany] at hfst
    subst hfst
    simp [process_batch, hR]
  · rw [hany] at hfst
    subst hfst
    simp [process_batch, hR]

/-- Witness for C1 (amended): with a loader that raises for `customers`,
the concrete window is not committed and the exception is recorded. -/
theorem C1_commit_unless_raise_witness :
    (process_batch (fun _ _ => LoadResult.raisedExc) [exRecord]
      ⟨0, 0, 0⟩).committed = false ∧
    (process_batch (fun _ _ => LoadResult.raisedExc) [exRecord]
      ⟨0, 0, 0⟩).raisedExc = true := by
  have h := C1_commit_unless_raise (fun _ _ => LoadResult.raisedExc)
    [exRecord] ⟨0, 0, 0⟩ (List.cons_ne_nil _ _)
  exact ⟨h.1.trans rfl, h.2.trans rfl⟩

/-! ### Claim C7 -/

/-- Initial consumer state. -/
def st0 : RunState := ⟨[], ⟨0, 0, 0⟩, ⟨0, 0, 0, 0⟩, [], 0, false⟩

/-- A loader that always succeeds. -/
def loaderOk : Val → List Dict → LoadResult := fun _ _ => .ok

theorem flushBatch_no_raise (loader : Val → List Dict → LoadResult)
    (st : RunState) (hne : st.message_batch ≠ [])
    (hnr : ∀ t r, isRaise (loader t r) = false) :
    (flushBatch loader st).message_batch = [] ∧
    (flushBatch loader st).loadCalls =
      st.loadCalls ++
        ((groupByTable st.message_batch).map fun g => (g.1, g.2.length)) ∧
    (flushBatch loader st).metrics.batches_committed =
      st.metrics.batches_committed + 1 := by
  have hie : st.message_batch.isEmpty = false := by
    simp [List.isEmpty_iff, hne]
  rcases hR : runLoads loader (groupByTable st.message_batch) st.metrics []
    with ⟨exc, m1, calls⟩
  have hfst := runLoads_fst loader (groupByTable st.message_batch)
    st.metrics []
  have hca := runLoads_calls loader (groupByTable st.message_batch)
    st.metrics [] (fun g _ => hnr g.1 g.2)
  have hbc := runLoads_committed_metric loader
    (groupByTable st.message_batch) st.metrics []
  rw [hR] at hfst hca hbc
  simp only at hfst hca hbc
  have hexc : exc = false := by
    rw [hfst, List.any_eq_false]
    intro g _
    simp [hnr g.1 g.2]
  subst hexc
  simp [flushBatch, process_batch, hie, hR, hca, hbc]

set_option maxRecDepth 40000 in
/-- C7: with configured batch size `N`, processing a message that
transforms to a row flushes (loads then commits) exactly when the
accumulated row count reaches `N` — below `N` the batch only grows and
no load or commit happens; at `N` the batch is drained through one load
call per pending table and one commit. In particular, 150 events for
one table with batch size 100 and an always-successful loader produce
exactly two load calls (100 rows then 50 rows) and two commits. -/
theorem C7_flush_at_batch_size :
    (∀ (loader : Val → List Dict → LoadResult) (N : Nat) (st : RunState)
       (ev d : Dict) (ts' : TransformStats),
      st.crashed = false →
      transform st.tstats ev st.clock = (some d, ts') →
      st.message_batch.length + 1 < N →
      stepRun loader N st (.message ev) =
        { st with
            message_batch := st.message_batch ++ [d],
            tstats := ts',
            clock := st.clock + 1,
            metrics :=
              { st.metrics with
                  messages_processed :=
                    st.metrics.messages_processed + 1 } }) ∧
    (∀ (loader : Val → List Dict → LoadResult) (N : Nat) (st : RunState)
       (ev d : Dict) (ts' : TransformStats),
      st.crashed = false →
      transform st.tstats ev st.clock = (some d, ts') →
      N ≤ st.message_batch.length + 1 →
      (∀ t r, isRaise (loader t r) = false) →
      (stepRun loader N st (.message ev)).message_batch = [] ∧
      (stepRun loader N st (.message ev)).loadCalls =
        st.loadCalls ++
          ((groupByTable (st.message_batch ++ [d])).map
            fun g => (g.1, g.2.length)) ∧
      (stepRun loader N st (.message ev)).metrics.batches_committed =
        st.metrics.batches_committed + 1) ∧
    ((runLoop loaderOk 100
        (List.replicate 150 (PollResult.message exEventC)) st0).loadCalls =
      [(.str "customers", 100), (.str "customers", 50)] ∧
     (runLoop loaderOk 100
        (List.replicate 150 (PollResult.message exEventC))
        st0).metrics.batches_committed = 2) := by
  refine ⟨?_, ?_, rfl, rfl⟩
  · intro loader N st ev d ts' hc htr hlen
    have hnotle : ¬ N ≤ st.message_batch.length + 1 := Nat.not_le.mpr hlen
    simp [stepRun, hc, htr, hnotle]
  · intro loader N st ev d ts' hc htr hlen hnr
    have hle : N ≤ (st.message_batch ++ [d]).length := by
      simpa using hlen
    have hred : stepRun loader N st (.message ev) =
        flushBatch loader
          { st with
              message_batch := st.message_batch ++ [d],
              tstats := ts',
              clock := st.clock + 1,
              metrics :=
                { st.metrics with
                    messages_processed :=
                      st.metrics.messages_processed + 1 } } := by
      simp [stepRun, hc, htr, hle]
      intro h
      exact absurd hlen (Nat.not_le.mpr h)
    rw [hred]
    have h := flushBatch_no_raise loader
      { st with
          message_batch := st.message_batch ++ [d],
          tstats := ts',
          clock := st.clock + 1,
          metrics :=
            { st.metrics with
                messages_processed :=
                  st.metrics.messages_processed + 1 } }
      (by simp) hnr
    simpa using h

/-- Witness for C7 at a concrete state: below the batch size the step
only appends (no load call, no commit), and exactly at the batch size
the concrete event flushes. -/
theorem C7_flush_at_batch_size_witness :
    (stepRun loaderOk 2 st0 (.message exEventC)).loadCalls = [] ∧
    (stepRun loaderOk 1 st0
      (.message exEventC)).metrics.batches_committed = 1 := by
  have ha := C7_flush_at_batch_size.1 loaderOk 2 st0 exEventC
    ((transform st0.tstats exEventC st0.clock).1.getD [])
    (transform st0.tstats exEventC st0.clock).2 rfl rfl (by decide)
  have hb := C7_flush_at_batch_size.2.1 loaderOk 1 st0 exEventC
    ((transform st0.tstats exEventC st0.clock).1.getD [])
    (transform st0.tstats exEventC st0.clock).2 rfl rfl (by decide)
    (fun _ _ => rfl)
  exact ⟨by rw [ha]; rfl, hb.2.2⟩

/-! ### Claim C9: the clock only influences timestamp fields -/

theorem convert_timestamp_isSome_now (v : Val) (n1 n2 : Int) :
    (convert_timestamp v n1).isSome = (convert_timestamp v n2).isSome := by
  rcases ht : truthy v <;> simp [convert_timestamp, ht]

theorem add_cdc_metadata_isSome_now (data : Val) (p : Dict) (n1 n2 : Int) :
    (add_cdc_metadata data p n1).isSome =
      (add_cdc_metadata data p n2).isSome := by
  rcases data with _ | _ | _ | _ | _ | d <;> simp [add_cdc_metadata]
  rcases hs : dictGetD p "source" (.dict []) with _ | _ | _ | _ | _ | s <;>
    simp
  have hc := convert_timestamp_isSome_now
    (pyOr (dictGetD p "ts_ms" .null) (dictGetD p "source_ts_ms" .null)) n1 n2
  rcases h1 : convert_timestamp
      (pyOr (dictGetD p "ts_ms" .null) (dictGetD p "source_ts_ms" .null))
      n1 with _ | t1 <;>
    rcases h2 : convert_timestamp
      (pyOr (dictGetD p "ts_ms" .null) (dictGetD p "source_ts_ms" .null))
      n2 with _ | t2 <;>
    rw [h1, h2] at hc <;> simp_all

theorem add_cdc_metadata_get_now (data : Val) (p : Dict) (n1 n2 : Int)
    (r1 r2 : Dict) (h1 : add_cdc_metadata data p n1 = some r1)
    (h2 : add_cdc_metadata data p n2 = some r2) (k : String)
    (hk1 : k ≠ "cdc_timestamp") (hk2 : k ≠ "event_time") :
    dictGet r1 k = dictGet r2 k := by
  rcases data with _ | _ | _ | _ | _ | d <;> simp [add_cdc_metadata] at h1 h2
  rcases hs : dictGetD p "source" (.dict []) with _ | _ | _ | _ | _ | s <;>
    rw [hs] at h1 h2 <;> simp at h1 h2
  rcases hc1 : convert_timestamp
      (pyOr (dictGetD p "ts_ms" .null) (dictGetD p "source_ts_ms" .null))
      n1 with _ | t1 <;> rw [hc1] at h1 <;> simp at h1
  rcases hc2 : convert_timestamp
      (pyOr (dictGetD p "ts_ms" .null) (dictGetD p "source_ts_ms" .null))
      n2 with _ | t2 <;> rw [hc2] at h2 <;> simp at h2
  subst h1
  subst h2
  simp [dictGet_dictSet, hk1, hk2]

theorem transform_insert_now (table : String) (p : Dict) (n1 n2 : Int) :
    (match transform_insert table p n1, transform_insert table p n2 with
     | .ok r1, .ok r2 =>
       ∀ k, k ≠ "cdc_timestamp" → k ≠ "event_time" →
         dictGet r1 k = dictGet r2 k
     | .error _, .error _ => True
     | _, _ => False) := by
  have hs := add_cdc_metadata_isSome_now (dictGetD p "after" (.dict p)) p n1 n2
  simp only [transform_insert]
  rcases h1 : add_cdc_metadata (dictGetD p "after" (.dict p)) p n1
      with _ | r1 <;>
    rcases h2 : add_cdc_metadata (dictGetD p "after" (.dict p)) p n2
      with _ | r2 <;>
    rw [h1, h2] at hs <;> simp only [Option.isSome] at hs
  · simp
  · exact absurd hs (by simp)
  · exact absurd hs (by simp)
  · simp only []
    intro k hk1 hk2
    by_cases hko : k = "cdc_operation"
    · subst hko; simp [dictGet_dictSet]
    · by_cases hkt : k = "table"
      · subst hkt; simp [dictGet_dictSet, hko]
      · simp only [dictGet_dictSet, if_neg hko, if_neg hkt]
        exact add_cdc_metadata_get_now _ p n1 n2 r1 r2 h1 h2 k hk1 hk2

theorem transform_update_now (table : String) (p : Dict) (n1 n2 : Int) :
    (match transform_update table p n1, transform_update table p n2 with
     | .ok (some r1), .ok (some r2) =>
       ∀ k, k ≠ "cdc_timestamp" → k ≠ "event_time" →
         dictGet r1 k = dictGet r2 k
     | .ok none, .ok none => True
     | .error _, .error _ => True
     | _, _ => False) := by
  have hs := add_cdc_metadata_isSome_now (dictGetD p "after" (.dict [])) p n1 n2
  rcases htru : truthy (dictGetD p "after" (.dict [])) with _ | _
  · simp [transform_update, htru]
  · rcases h1 : add_cdc_metadata (dictGetD p "after" (.dict [])) p n1
        with _ | r1 <;>
      rcases h2 : add_cdc_metadata (dictGetD p "after" (.dict [])) p n2
        with _ | r2 <;>
      rw [h1, h2] at hs
    · simp [transform_update, htru, h1, h2]
    · exact absurd hs (by simp)
    · exact absurd hs (by simp)
    · simp only [transform_update, htru, h1, h2, Bool.true_eq_false,
        if_false, reduceIte]
      intro k hk1 hk2
      by_cases hko : k = "cdc_operation"
      · subst hko; simp [dictGet_dictSet]
      · by_cases hkt : k = "table"
        · subst hkt; simp [dictGet_dictSet, hko]
        · simp only [dictGet_dictSet, if_neg hko, if_neg hkt]
          exact add_cdc_metadata_get_now _ p n1 n2 r1 r2 h1 h2 k hk1 hk2

theorem transform_delete_now (table : String) (p : Dict) (n1 n2 : Int) :
    (match transform_delete table p n1, transform_delete table p n2 with
     | .ok (some r1), .ok (some r2) =>
       ∀ k, k ≠ "cdc_timestamp" → k ≠ "event_time" →
         dictGet r1 k = dictGet r2 k
     | .ok none, .ok none => True
     | .error _, .error _ => True
     | _, _ => False) := by
  have hs := add_cdc_metadata_isSome_now (dictGetD p "before" (.dict []))
    p n1 n2
  rcases htru : truthy (dictGetD p "before" (.dict [])) with _ | _
  · simp [transform_delete, htru]
  · rcases h1 : add_cdc_metadata (dictGetD p "before" (.dict [])) p n1
        with _ | r1 <;>
      rcases h2 : add_cdc_metadata (dictGetD p "before" (.dict [])) p n2
        with _ | r2 <;>
      rw [h1, h2] at hs
    · simp [transform_delete, htru, h1, h2]
    · exact absurd hs (by simp)
    · exact absurd hs (by simp)
    · simp only [transform_delete, htru, h1, h2, Bool.true_eq_false,
        if_false, reduceIte]
      intro k hk1 hk2
      by_cases hko : k = "cdc_operation"
      · subst hko; simp [dictGet_dictSet]
      · by_cases hkt : k = "table"
        · subst hkt; simp [dictGet_dictSet, hko]
        · simp only [dictGet_dictSet, if_neg hko, if_neg hkt]
          exact add_cdc_metadata_get_now _ p n1 n2 r1 r2 h1 h2 k hk1 hk2

theorem transformOp_now (s1 s2 : TransformStats) (table : String)
    (p : Dict) (n1 n2 : Int) :
    (match (transformOp s1 table p n1).1, (transformOp s2 table p n2).1 with
     | some r1, some r2 =>
       ∀ k, k ≠ "cdc_timestamp" → k ≠ "event_time" →
         dictGet r1 k = dictGet r2 k
     | none, none => True
     | _, _ => False) := by
  rcases htru : truthy (dictGetD p "op" (dictGetD p "__op" .null)) with _ | _
  · simp [transformOp, htru]
  · rcases hins : (valIsStr (dictGetD p "op" (dictGetD p "__op" .null)) "c" ||
        valIsStr (dictGetD p "op" (dictGetD p "__op" .null)) "r") with _ | _
    · rcases hu : valIsStr (dictGetD p "op" (dictGetD p "__op" .null)) "u"
          with _ | _
      · rcases hd : valIsStr (dictGetD p "op" (dictGetD p "__op" .null)) "d"
            with _ | _
        · simp [transformOp, htru, hins, hu, hd]
        · have h := transform_delete_now table p n1 n2
          rcases hi1 : transform_delete table p n1 with e1 | or1 <;>
            rcases hi2 : transform_delete table p n2 with e2 | or2 <;>
            rw [hi1, hi2] at h
          · simp [transformOp, htru, hins, hu, hd, hi1, hi2]
          · exact h.elim
          · rcases or1 with _ | r1 <;> exact h.elim
          · rcases or1 with _ | r1 <;> rcases or2 with _ | r2
            · simp [transformOp, htru, hins, hu, hd, hi1, hi2]
            · exact h.elim
            · exact h.elim
            · simpa [transformOp, htru, hins, hu, hd, hi1, hi2] using h
      · have h := transform_update_now table p n1 n2
        rcases hi1 : transform_update table p n1 with e1 | or1 <;>
          rcases hi2 : transform_update table p n2 with e2 | or2 <;>
          rw [hi1, hi2] at h
        · simp [transformOp, htru, hins, hu, hi1, hi2]
        · exact h.elim
        · rcases or1 with _ | r1 <;> exact h.elim
        · rcases or1 with _ | r1 <;> rcases or2 with _ | r2
          · simp [transformOp, htru, hins, hu, hi1, hi2]
          · exact h.elim
          · exact h.elim
          · simpa [transformOp, htru, hins, hu, hi1, hi2] using h
    · have h := transform_insert_now table p n1 n2
      rcases hi1 : transform_insert table p n1 with e1 | r1 <;>
        rcases hi2 : transform_insert table p n2 with e2 | r2 <;>
        rw [hi1, hi2] at h
      · simp [transformOp, htru, hins, hi1, hi2]
      · exact h.elim
      · exact h.elim
      · simpa [transformOp, htru, hins, hi1, hi2] using h

theorem transform_now (s1 s2 : TransformStats) (event : Dict)
    (n1 n2 : Int) :
    (match (transform s1 event n1).1, (transform s2 event n2).1 with
     | some r1, some r2 =>
       ∀ k, k ≠ "cdc_timestamp" → k ≠ "event_time" →
         dictGet r1 k = dictGet r2 k
     | none, none => True
     | _, _ => False) := by
  rcases hp : dictGet event "payload" with _ | pv <;>
    rcases ht : dictGet event "topic" with _ | tv
  · simp [transform, hp, ht]
  · rcases tv <;> simp [transform, hp, ht]
  · simp [transform, hp, ht]
  · rcases tv with _ | nv | topic | bv | dtv | entries
    · simp [transform, hp, ht]
    · simp [transform, hp, ht]
    · rcases hx : extract_table_name topic with _ | tbl
      · simp [transform, hp, ht, hx]
      · rcases pv with _ | pn | ps | pb | pdt | p
        · simp [transform, hp, ht, hx]
        · simp [transform, hp, ht, hx]
        · simp [transform, hp, ht, hx]
        · simp [transform, hp, ht, hx]
        · simp [transform, hp, ht, hx]
        · have h := transformOp_now s1 s2 tbl p n1 n2
          simpa [transform, hp, ht, hx] using h
    · simp [transform, hp, ht]
    · simp [transform, hp, ht]
    · simp [transform, hp, ht]

/-- C9: transforming the same decoded event twice yields results that
agree on presence (both a row or both a skip) and on every field other
than the timestamp fields `event_time` and `cdc_timestamp`, whatever the
processing-time clock reads in the two runs and whatever statistics
state the transformer carries. -/
theorem C9_transform_repeatable (s1 s2 : TransformStats) (event : Dict)
    (n1 n2 : Int) :
    ((transform s1 event n1).1.isSome = (transform s2 event n2).1.isSome) ∧
    ∀ k, k ≠ "event_time" → k ≠ "cdc_timestamp" →
      rowGet (transform s1 event n1).1 k =
        rowGet (transform s2 event n2).1 k := by
  have h := transform_now s1 s2 event n1 n2
  rcases h1 : (transform s1 event n1).1 with _ | r1 <;>
    rcases h2 : (transform s2 event n2).1 with _ | r2 <;>
    rw [h1, h2] at h
  · exact ⟨rfl, fun k _ _ => rfl⟩
  · exact absurd h (by simp)
  · exact absurd h (by simp)
  · exact ⟨rfl, fun k hk1 hk2 => by
      simpa [rowGet] using h k hk2 hk1⟩

/-- Witness for C9 at a concrete event and two different clock values. -/
theorem C9_transform_repeatable_witness :
    rowGet (transform ⟨0, 0, 0, 0⟩ exEventC 11).1 "customer_id" =
      rowGet (transform ⟨5, 6, 7, 8⟩ exEventC 22).1 "customer_id" := by
  exact (C9_transform_repeatable ⟨0, 0, 0, 0⟩ ⟨5, 6, 7, 8⟩ exEventC 11
    22).2 "customer_id" (by decide) (by decide)

/-! ### Claim C10: the transformer mutates no input object -/

theorem hread_hwrite (a : Nat) (d : HDict) (h : Heap) (b : Nat) :
    hread (hwrite a d h) b = if b = a then d else hread h b := by
  by_cases hb : b = a
  · subst hb; simp [hread, hwrite, List.find?]
  · have hba : (a == b) = false := by simp [Ne.symm hb]
    simp [hread, hwrite, List.find?, hba, hb]

theorem hwrite_next (a : Nat) (d : HDict) (h : Heap) :
    (hwrite a d h).next = h.next := rfl

theorem hread_halloc_snd (d : HDict) (h : Heap) (b : Nat) (hb : b < h.next) :
    hread (halloc d h).2 b = hread h b := by
  have hne : ¬ ((h.next : Nat) == b) = true := by
    simp [beq_iff_eq]
    omega
  simp [hread, halloc, List.find?, hne]

theorem add_cdc_metadataH_frame (data : HVal) (pA : Nat) (now : Int)
    (h : Heap) (r : Nat) (h' : Heap)
    (heq : add_cdc_metadataH data pA now h = some (r, h')) :
    r = h.next ∧ h'.next = h.next + 1 ∧
    ∀ a, a < h.next → hread h' a = hread h a := by
  rcases data with _ | _ | _ | _ | _ | ad <;>
    simp only [add_cdc_metadataH] at heq <;> try exact absurd heq (by simp)
  split at heq
  · exact absurd heq (by simp)
  · split at heq
    · exact absurd heq (by simp)
    · simp only [halloc, Option.some.injEq, Prod.mk.injEq] at heq
      obtain ⟨hr, hh⟩ := heq
      subst hr
      subst hh
      refine ⟨rfl, rfl, ?_⟩
      intro a ha
      have hne : a ≠ h.next := by omega
      simp only [hread_hwrite, hwrite_next, if_neg hne]
      have hfind : ¬ ((h.next : Nat) == a) = true := by
        simp [beq_iff_eq]
        omega
      simp [hread, List.find?, hfind]

theorem transform_insertH_frame (table : String) (pA : Nat) (now : Int)
    (h : Heap) (r : Nat) (h' : Heap)
    (heq : transform_insertH table pA now h = some (r, h')) :
    h.next ≤ r ∧ r < h'.next ∧
    ∀ a, a < h.next → hread h' a = hread h a := by
  simp only [transform_insertH] at heq
  rcases hm : add_cdc_metadataH (hdGetD (hread h pA) "after" (.ref pA))
      pA now h with _ | rh
  · rw [hm] at heq; exact absurd heq (by simp)
  · obtain ⟨r1, h1⟩ := rh
    rw [hm] at heq
    simp only [Option.some.injEq, Prod.mk.injEq] at heq
    obtain ⟨hr, hh⟩ := heq
    subst hr
    subst hh
    obtain ⟨hr1, hn1, hfr⟩ := add_cdc_metadataH_frame _ pA now h r1 h1 hm
    subst hr1
    refine ⟨le_refl _, by simp [hwrite_next, hn1], ?_⟩
    intro a ha
    have hne : a ≠ h.next := by omega
    simp only [hread_hwrite, if_neg hne]
    exact hfr a ha

theorem transform_updateH_frame (table : String) (pA : Nat) (now : Int)
    (h : Heap) (r : Nat) (h' : Heap)
    (heq : transform_updateH table pA now h = .ok (some (r, h'))) :
    h.next ≤ r ∧ r < h'.next ∧
    ∀ a, a < h.next → hread h' a = hread h a := by
  simp only [transform_updateH] at heq
  split at heq
  · exact absurd heq (by simp)
  · split at heq
    · exact absurd heq (by simp)
    · rcases hm : add_cdc_metadataH _ pA now h with _ | rh
      · rw [hm] at heq; exact absurd heq (by simp)
      · obtain ⟨r1, h1⟩ := rh
        rw [hm] at heq
        simp only [Except.ok.injEq, Option.some.injEq, Prod.mk.injEq] at heq
        obtain ⟨hr, hh⟩ := heq
        subst hr
        subst hh
        obtain ⟨hr1, hn1, hfr⟩ := add_cdc_metadataH_frame _ pA now h r1 h1 hm
        subst hr1
        refine ⟨le_refl _, by simp [hwrite_next, hn1], ?_⟩
        intro a ha
        have hne : a ≠ h.next := by omega
        simp only [hread_hwrite, if_neg hne]
        exact hfr a ha

theorem transform_deleteH_frame (table : String) (pA : Nat) (now : Int)
    (h : Heap) (r : Nat) (h' : Heap)
    (heq : transform_deleteH table pA now h = .ok (some (r, h'))) :
    h.next ≤ r ∧ r < h'.next ∧
    ∀ a, a < h.next → hread h' a = hread h a := by
  simp only [transform_deleteH] at heq
  split at heq
  · exact absurd heq (by simp)
  · split at heq
    · exact absurd heq (by simp)
    · rcases hm : add_cdc_metadataH _ pA now h with _ | rh
      · rw [hm] at heq; exact absurd heq (by simp)
      · obtain ⟨r1, h1⟩ := rh
        rw [hm] at heq
        simp only [Except.ok.injEq, Option.some.injEq, Prod.mk.injEq] at heq
        obtain ⟨hr, hh⟩ := heq
        subst hr
        subst hh
        obtain ⟨hr1, hn1, hfr⟩ := add_cdc_metadataH_frame _ pA now h r1 h1 hm
        subst hr1
        refine ⟨le_refl _, by simp [hwrite_next, hn1], ?_⟩
        intro a ha
        have hne : a ≠ h.next := by omega
        simp only [hread_hwrite, if_neg hne]
        exact hfr a ha

/-- C10: `transform` never mutates its input. Over the heap embedding,
transforming the event object at address `e` leaves the contents of
every pre-existing address — the event dict, its payload dict, the
`before`/`after`/`source` row dicts, and anything else allocated before
the call — exactly as they were, and a returned row lives at a fresh
address (allocated by the call), so it is not aliased to any part of
the input. -/
theorem frame_triv (h : Heap) (res : Option Nat) (h' : Heap)
    (heq : ((none : Option Nat), h) = (res, h')) :
    (∀ a, a < h.next → hread h' a = hread h a) ∧
    (∀ r, res = some r → h.next ≤ r ∧ r < h'.next) := by
  obtain ⟨h1, h2⟩ := Prod.mk.injEq .. ▸ heq
  subst h2
  exact ⟨fun a _ => rfl, fun r hr => by rw [← h1] at hr; cases hr⟩

theorem frame_row (h : Heap) (res : Option Nat) (h' h1 : Heap) (r1 : Nat)
    (heq : (some r1, h1) = (res, h'))
    (hfr : h.next ≤ r1 ∧ r1 < h1.next ∧
      ∀ a, a < h.next → hread h1 a = hread h a) :
    (∀ a, a < h.next → hread h' a = hread h a) ∧
    (∀ r, res = some r → h.next ≤ r ∧ r < h'.next) := by
  obtain ⟨hres, hh⟩ := Prod.mk.injEq .. ▸ heq
  subst hh
  refine ⟨hfr.2.2, fun r hr => ?_⟩
  rw [← hres] at hr
  obtain rfl : r1 = r := by simpa using hr
  exact ⟨hfr.1, hfr.2.1⟩

/-- C10: `transform` never mutates its input. Over the heap embedding,
transforming the event object at address `e` leaves the contents of
every pre-existing address — the event dict, its payload dict, the
`before`/`after`/`source` row dicts, and anything else allocated before
the call — exactly as they were, and a returned row lives at a fresh
address (allocated by the call), so it is not aliased to any part of
the input. -/
theorem C10_transform_no_mutation (e : Nat) (now : Int) (h : Heap)
    (res : Option Nat) (h' : Heap)
    (heq : transformH e now h = (res, h')) :
    (∀ a, a < h.next → hread h' a = hread h a) ∧
    (∀ r, res = some r → h.next ≤ r ∧ r < h'.next) := by
  rcases hp : hdGet (hread h e) "payload" with _ | pv
  · simp only [transformH, hp] at heq
    exact frame_triv h res h' heq
  · rcases ht : hdGet (hread h e) "topic" with _ | tv
    · simp only [transformH, hp, ht] at heq
      exact frame_triv h res h' heq
    · rcases pv with _ | n | sv | b | t | pA <;>
        rcases tv with _ | n2 | topic | b2 | t2 | e2 <;>
        simp only [transformH, hp, ht] at heq <;>
        try exact frame_triv h res h' heq
      rcases hx : extract_table_name topic with _ | tbl
      · rw [hx] at heq
        exact frame_triv h res h' heq
      · rw [hx] at heq
        rcases hop : htruthy h
            (hdGetD (hread h pA) "op" (hdGetD (hread h pA) "__op" .null))
            with _ | _
        · simp only [hop, reduceIte] at heq
          exact frame_triv h res h' heq
        · simp only [hop, Bool.true_eq_false, if_false, reduceIte] at heq
          rcases hins : (hvalIsStr
                (hdGetD (hread h pA) "op" (hdGetD (hread h pA) "__op" .null))
                "c" ||
              hvalIsStr
                (hdGetD (hread h pA) "op" (hdGetD (hread h pA) "__op" .null))
                "r") with _ | _
          · simp only [hins, Bool.false_eq_true, if_false, reduceIte] at heq
            rcases hu : hvalIsStr
                (hdGetD (hread h pA) "op" (hdGetD (hread h pA) "__op" .null))
                "u" with _ | _
            · simp only [hu, Bool.false_eq_true, if_false, reduceIte] at heq
              rcases hd : hvalIsStr
                  (hdGetD (hread h pA) "op"
                    (hdGetD (hread h pA) "__op" .null))
                  "d" with _ | _
              · simp only [hd, Bool.false_eq_true, if_false,
                  reduceIte] at heq
                exact frame_triv h res h' heq
              · simp only [hd, reduceIte] at heq
                rcases hi : transform_deleteH tbl pA now h with e1 | or1
                · rw [hi] at heq
                  exact frame_triv h res h' heq
                · rcases or1 with _ | rh
                  · rw [hi] at heq
                    exact frame_triv h res h' heq
                  · obtain ⟨r1, h1⟩ := rh
                    rw [hi] at heq
                    exact frame_row h res h' h1 r1 heq
                      (transform_deleteH_frame tbl pA now h r1 h1 hi)
            · simp only [hu, reduceIte] at heq
              rcases hi : transform_updateH tbl pA now h with e1 | or1
              · rw [hi] at heq
                exact frame_triv h res h' heq
              · rcases or1 with _ | rh
                · rw [hi] at heq
                  exact frame_triv h res h' heq
                · obtain ⟨r1, h1⟩ := rh
                  rw [hi] at heq
                  exact frame_row h res h' h1 r1 heq
                    (transform_updateH_frame tbl pA now h r1 h1 hi)
          · simp only [hins, reduceIte] at heq
            rcases hi : transform_insertH tbl pA now h with _ | rh
            · rw [hi] at heq
              exact frame_triv h res h' heq
            · obtain ⟨r1, h1⟩ := rh
              rw [hi] at heq
              exact frame_row h res h' h1 r1 heq
                (transform_insertH_frame tbl pA now h r1 h1 hi)

/-- A concrete heap for the C10 witness: address 0 holds the event,
address 1 its payload (a create with `after` at address 2), address 2
the after-image row. -/
def exHeap : Heap :=
  ⟨3, [(0, [("topic",
              .str "cdc.ecommerce.ecommerce_postgres.public.customers"),
             ("payload", .ref 1)]),
       (1, [("op", .str "c"), ("after", .ref 2),
            ("ts_ms", .int 1700000000123)]),
       (2, [("customer_id", .int 7)])]⟩

/-- Witness for C10: the concrete transform call leaves the after-image
row at address 2 (and the payload at address 1) untouched, and the
returned row address is fresh (not an input address). -/
theorem C10_transform_no_mutation_witness :
    hread (transformH 0 17 exHeap).2 2 = hread exHeap 2 ∧
    hread (transformH 0 17 exHeap).2 1 = hread exHeap 1 ∧
    (∀ r, (transformH 0 17 exHeap).1 = some r → 3 ≤ r) := by
  have h := C10_transform_no_mutation 0 17 exHeap
    (transformH 0 17 exHeap).1 (transformH 0 17 exHeap).2 rfl
  exact ⟨h.1 2 (by decide), h.1 1 (by decide),
    fun r hr => (h.2 r hr).1⟩

end CDC
